import Mathlib

/-!
Verification of the HML-Studio song catalog and generation pipeline
(`gui.py`).  The Python code is shallowly embedded: strings are lists of
characters (`Str`), the file system is passed explicitly (metadata store,
songs-directory listing, existence flags), and every operation is a pure
Lean function mirroring the corresponding Python function line by line.
ASCII character classes approximate Python's unicode-aware `\w`, `str.strip`
and `str.lower`; all inputs exercised here are ASCII.
-/

namespace HML

/-- Strings are modelled as lists of characters so that the character-level
operations of the source (`re.sub`, `str.split`, `str.strip`, `int(...)`)
can be modelled faithfully. -/
abbrev Str := List Char

/-- Boolean test that `p` is a leading segment of `s`; model of Python
`str.startswith`. -/
def leadsWith : Str → Str → Bool
  | [], _ => true
  | _ :: _, [] => false
  | p :: ps, c :: cs => p == c && leadsWith ps cs

/-- Substring containment, model of Python `pat in s`. -/
def containsSub (s pat : Str) : Bool :=
  match s with
  | [] => leadsWith pat []
  | c :: t => leadsWith pat (c :: t) || containsSub t pat

/-- Model of `str.lower` (ASCII). -/
def pyLower (s : Str) : Str := s.map Char.toLower

/-- Model of `str.strip`: drop leading and trailing whitespace. -/
def pyStrip (s : Str) : Str :=
  ((s.dropWhile Char.isWhitespace).reverse.dropWhile Char.isWhitespace).reverse

/-- Model of Python `str.split(sep)` for a one-character separator:
`"a_b".split("_") = ["a","b"]`, `"".split("_") = [""]`. -/
def pySplit (sep : Char) : Str → List Str
  | [] => [[]]
  | c :: cs =>
    if c = sep then [] :: pySplit sep cs
    else
      match pySplit sep cs with
      | [] => [[c]]
      | h :: t => (c :: h) :: t

/-- Numeric value of a decimal digit character. -/
def digVal (c : Char) : Nat := c.toNat - 48

/-- Value of a string of decimal digits, most significant first. -/
def decVal (s : Str) : Nat := s.foldl (fun a c => 10 * a + digVal c) 0

/-- Decimal rendering of a natural number, the digits produced exactly as
Python `str(n)` produces them. -/
def natRepr (n : Nat) : Str :=
  if _h : n < 10 then [Nat.digitChar n]
  else natRepr (n / 10) ++ [Nat.digitChar (n % 10)]
termination_by n
decreasing_by
  exact Nat.div_lt_self (by omega) (by omega)

/-- Decimal rendering of an integer, model of Python f-string formatting of
an `int`. -/
def intRepr (n : Int) : Str :=
  if n < 0 then '-' :: natRepr (-n).toNat else natRepr n.toNat

/-- Core of Python `int(string)` after stripping: an optional sign followed
by a nonempty run of decimal digits; anything else raises `ValueError`,
modelled as `none`. -/
def pyIntCore (s : Str) : Option Int :=
  match s with
  | [] => none
  | c :: ds =>
    if c = '-' then
      if ds ≠ [] ∧ ds.all Char.isDigit then some (-(decVal ds : Int)) else none
    else if c = '+' then
      if ds ≠ [] ∧ ds.all Char.isDigit then some ((decVal ds : Int)) else none
    else if (c :: ds).all Char.isDigit then some ((decVal (c :: ds) : Int)) else none

/-- Model of Python `int(string)` (ASCII digits; the underscore digit
separators Python would also accept cannot occur in the segments this
program parses, which are produced by splitting on underscores). -/
def pyInt (s : Str) : Option Int := pyIntCore (pyStrip s)

/-- Model of Python `max` on a nonempty list of integers (`none` on the
empty list, where Python would raise). -/
def listMaxInt : List Int → Option Int
  | [] => none
  | x :: xs =>
    match listMaxInt xs with
    | none => some x
    | some m => some (max x m)

/-! FileManager (`gui.py` lines 50-130).  The songs directory is modelled
as the list of stems (and modification times) of its `*.wav` files; the
metadata directory as a map from file name to stored JSON object. -/

/-- Stem shared by the `Unknown_*.wav` glob pattern and the
`name.startswith` check in `get_next_unknown_name`. -/
def unknownTag : Str := "Unknown_".data

/-- One iteration of the loop in `FileManager.get_next_unknown_name`
(lines 68-75): for a stem starting with `Unknown_`, parse
`int(name.split("_")[1])`; an `IndexError` or `ValueError` is swallowed
(`none`). -/
def parse_unknown_num (name : Str) : Option Int :=
  if leadsWith unknownTag name then ((pySplit '_' name))[1]?.bind pyInt else none

/-- `FileManager.get_next_unknown_name` (lines 64-77) over the list of
stems of all `.wav` files in the songs directory; the `filter` is the
`Unknown_*.wav` glob. -/
def get_next_unknown_name (stems : List Str) : Str :=
  let existing := stems.filter (fun s => leadsWith unknownTag s)
  let numbers := existing.filterMap parse_unknown_num
  let next_num : Int :=
    match listMaxInt numbers with
    | none => 1
    | some m => m + 1
  unknownTag ++ intRepr next_num

/-- The JSON values this program stores: strings and `null`. -/
inductive JVal where
  | jstr (s : Str)
  | jnull
deriving DecidableEq

/-- The song metadata record written by `FileManager.save_metadata`
(lines 79-93). -/
structure Metadata where
  title : Str
  lyrics : Str
  style : Str
  genre : Str
  song_type : Str
  cover_path : Option Str
  created_at : Str
deriving DecidableEq

/-- The JSON object `save_metadata` dumps, key by key (lines 81-89). -/
def metadata_to_json (m : Metadata) : List (Str × JVal) :=
  [("title".data, JVal.jstr m.title),
   ("lyrics".data, JVal.jstr m.lyrics),
   ("style".data, JVal.jstr m.style),
   ("genre".data, JVal.jstr m.genre),
   ("type".data, JVal.jstr m.song_type),
   ("cover_path".data,
     match m.cover_path with
     | some p => JVal.jstr p
     | none => JVal.jnull),
   ("created_at".data, JVal.jstr m.created_at)]

/-- Look up a string-valued key in a parsed JSON object. -/
def jGetStr (j : List (Str × JVal)) (k : Str) : Option Str :=
  match j.lookup k with
  | some (JVal.jstr s) => some s
  | _ => none

/-- Look up a string-or-null key in a parsed JSON object. -/
def jGetOptStr (j : List (Str × JVal)) (k : Str) : Option (Option Str) :=
  match j.lookup k with
  | some (JVal.jstr s) => some (some s)
  | some JVal.jnull => some none
  | none => none

/-- Reading a metadata record back out of its JSON object. -/
def metadata_of_json (j : List (Str × JVal)) : Option Metadata :=
  match jGetStr j "title".data, jGetStr j "lyrics".data, jGetStr j "style".data,
        jGetStr j "genre".data, jGetStr j "type".data,
        jGetOptStr j "cover_path".data, jGetStr j "created_at".data with
  | some t, some l, some s, some g, some ty, some cp, some ca =>
      some ⟨t, l, s, g, ty, cp, ca⟩
  | _, _, _, _, _, _, _ => none

/-- The metadata directory: file name (stem plus `.json`) to JSON object. -/
abbrev MetaStore := Str → Option (List (Str × JVal))

/-- `FileManager.save_metadata` (lines 79-93): builds the record and writes
its JSON dump at `metadata/<title>.json`. -/
def save_metadata (store : MetaStore) (title lyrics style genre song_type : Str)
    (cover_path : Option Str) (now : Str) : MetaStore :=
  fun k =>
    if k = title ++ ".json".data
    then some (metadata_to_json ⟨title, lyrics, style, genre, song_type, cover_path, now⟩)
    else store k

/-- `FileManager.load_metadata` (lines 95-101): reads and parses
`metadata/<title>.json`, `none` when the file is missing. -/
def load_metadata (store : MetaStore) (title : Str) : Option Metadata :=
  (store (title ++ ".json".data)).bind metadata_of_json

/-- A `.wav` file in the songs directory: its stem and its modification
time. -/
structure WavFile where
  stem : Str
  mtime : Int
deriving DecidableEq

/-- One element of the list built by `FileManager.get_all_songs`
(lines 119-128): the title is the wav file's stem, the cover path is
`covers/<stem>.png`, and the metadata is loaded by that stem.  The wav
file's modification time is carried for the sort key. -/
structure SongEntry where
  title : Str
  wav_stem : Str
  cover_stem : Str
  mtime : Int
  metadata : Option Metadata
deriving DecidableEq

/-- The entry `get_all_songs` appends for one wav file. -/
def song_entry (store : MetaStore) (f : WavFile) : SongEntry :=
  ⟨f.stem, f.stem, f.stem, f.mtime, load_metadata store f.stem⟩

/-- `FileManager.get_all_songs` (lines 117-130): one entry per `*.wav`
file, then `songs.sort(key=mtime, reverse=True)`. -/
def get_all_songs (store : MetaStore) (dir : List WavFile) : List SongEntry :=
  (dir.map (song_entry store)).mergeSort (fun a b => decide (b.mtime ≤ a.mtime))

/-! Generation worker `HeartMuLaStudio.run_generation` (lines 977-1091). -/

/-- Characters kept by the sanitizer `re.sub(r'[^\w\s-]', '_', title)`:
word characters, whitespace and hyphen (ASCII reading of `\w`/`\s`). -/
def keepChar (c : Char) : Bool :=
  c.isAlphanum || c == '_' || c.isWhitespace || c == '-'

/-- One character of the sanitizing substitution. -/
def sanitizeOne (c : Char) : Char := if keepChar c then c else '_'

/-- The `safe_title` computation of `run_generation` (lines 982-985):
substitute, strip, fall back to `"song"` when empty. -/
def safe_title (title : Str) : Str :=
  let s := pyStrip (title.map sanitizeOne)
  if s = [] then "song".data else s

/-- The three catalog directories. -/
inductive CatDir where
  | songs
  | covers
  | metadata
deriving DecidableEq

/-- A path in the catalog, kept structural (directory, stem, extension) as
`pathlib` composition `dir / (stem + "." + ext)` keeps these components
separate. -/
structure CatPath where
  dir : CatDir
  stem : Str
  ext : Str
deriving DecidableEq

/-- Rendering of a catalog path as the string the program stores in
metadata (relative to the application directory). -/
def pathStr (p : CatPath) : Str :=
  (match p.dir with
   | CatDir.songs => "output/songs/".data
   | CatDir.covers => "output/covers/".data
   | CatDir.metadata => "output/metadata/".data) ++ p.stem ++ ('.' :: p.ext)

/-- The `--save_path` target `songs_dir / f"<safe_title>.wav"` (line 998). -/
def save_path (title : Str) : CatPath := ⟨CatDir.songs, safe_title title, "wav".data⟩

/-- The final cover location `covers_dir / f"<title>.png"` (lines 927 and
1062): note the raw, unsanitized title. -/
def cover_target (title : Str) : CatPath := ⟨CatDir.covers, title, "png".data⟩

/-- The metadata location `metadata_dir / f"<title>.json"` (line 90): raw
title again. -/
def metadata_target (title : Str) : CatPath := ⟨CatDir.metadata, title, "json".data⟩

/-- The argument vector of the external script, kept structural; numeric
parameters are carried as their already-formatted strings since no claim
depends on float formatting. -/
inductive Arg where
  | exe
  | script
  | model_path (p : Str)
  | version (v : Str)
  | save_path (p : CatPath)
  | topk (s : Str)
  | temperature (s : Str)
  | cfg_scale (s : Str)
  | max_audio_length_ms (s : Str)
  | lyrics (rel : Str)
  | tags (rel : Str)
deriving DecidableEq

/-- The inputs `run_generation` receives from `generate_song` (line 977). -/
structure GenRequest where
  title : Str
  lyrics : Str
  style : Str
  genre : Str
  song_type : Str
  model_path : Str
  version : Str
  topk_s : Str
  temperature_s : Str
  cfg_scale_s : Str
  audio_length_ms_s : Str
deriving DecidableEq

/-- `tags_parts` (lines 1017-1019): the style description, when nonempty. -/
def tags_parts (style : Str) : List Str := if style ≠ [] then [style] else []

/-- Model of `",".join`. -/
def joinComma : List Str → Str
  | [] => []
  | [s] => s
  | s :: t :: rest => s ++ ',' :: joinComma (t :: rest)

/-- The command line built in lines 991-1028: base arguments always, then
`--lyrics=assets/lyrics.txt` only when the lyrics are nonempty, then
`--tags=assets/tags.txt` only when there are tag parts. -/
def build_cmd (r : GenRequest) : List Arg :=
  [Arg.exe, Arg.script, Arg.model_path r.model_path, Arg.version r.version,
   Arg.save_path (save_path r.title), Arg.topk r.topk_s,
   Arg.temperature r.temperature_s, Arg.cfg_scale r.cfg_scale_s,
   Arg.max_audio_length_ms r.audio_length_ms_s]
  ++ (if r.lyrics ≠ [] then [Arg.lyrics "assets/lyrics.txt".data] else [])
  ++ (if tags_parts r.style ≠ [] then [Arg.tags "assets/tags.txt".data] else [])

/-- What is on disk and on the command line at the moment the subprocess
is launched (lines 1007-1038): the contents written to
`assets/lyrics.txt` and `assets/tags.txt` when they are written at all,
and the argument vector. -/
structure LaunchSpec where
  lyricsFile : Option Str
  tagsFile : Option Str
  cmd : List Arg
deriving DecidableEq

/-- The side-file writes and command line of one generation request, in
the order of lines 1007-1030: the optional writes happen before the
`subprocess.Popen` call. -/
def launch_spec (r : GenRequest) : LaunchSpec :=
  { lyricsFile := if r.lyrics ≠ [] then some r.lyrics else none,
    tagsFile :=
      if tags_parts r.style ≠ [] then some (joinComma (tags_parts r.style)) else none,
    cmd := build_cmd r }

/-- The heuristic of line 1045: after stripping, does the lowercased line
contain `step`, `generating` or `progress`. -/
def progressLine (line : Str) : Bool :=
  let l := pyLower (pyStrip line)
  containsSub l "step".data || containsSub l "generating".data ||
    containsSub l "progress".data

/-- One line of the output-streaming loop (lines 1043-1048):
`current_step = min(current_step + 2, 100)` on a matching line. -/
def stepProgress (cur : Nat) (line : Str) : Nat :=
  if progressLine line then min (cur + 2) 100 else cur

/-- The progress counter after streaming a list of output lines, starting
from `current_step = 0` (line 1041). -/
def progressAfter (lines : List Str) : Nat := lines.foldl stepProgress 0

/-- The sort `sorted(glob, key=mtime, reverse=True)` of line 1055. -/
def sortByMtimeDesc (l : List WavFile) : List WavFile :=
  l.mergeSort (fun a b => decide (b.mtime ≤ a.mtime))

/-- Lines 1053-1058: `expected_file` is the save path when it exists;
otherwise the most recently modified `*.wav` in the songs directory when
there is one; otherwise the (missing) save path unchanged. -/
def reconcile_output (expected : CatPath) (expectedExists : Bool)
    (dir : List WavFile) : CatPath :=
  if expectedExists then expected
  else
    match sortByMtimeDesc dir with
    | [] => expected
    | f :: _ => ⟨CatDir.songs, f.stem, "wav".data⟩

/-- The environment the completion code of `run_generation` observes: exit
code, whether the expected output file exists, the songs directory
listing, the `current_cover_path` attribute, whether the file that
attribute points at exists, and the timestamp. -/
structure FinalizeEnv where
  returncode : Int
  expectedExists : Bool
  songsDir : List WavFile
  current_cover_path : Option Str
  tempCoverExists : Bool
  now : Str
deriving DecidableEq

/-- The effects of the completion code (lines 1052-1091): the reconciled
output file, an optional rename installing the cover, an optional
gradient-cover write, an optional metadata write, and success/failure. -/
structure FinalizeResult where
  adopted : Option CatPath
  coverRename : Option (Str × CatPath)
  gradientCover : Option CatPath
  metadataWrite : Option (CatPath × Metadata)
  success : Bool
deriving DecidableEq

/-- Lines 1052-1091 of `run_generation`: on exit code zero reconcile the
output location, install the cover (rename the temp cover when the
attribute is set and its file exists; synthesize a gradient cover when the
attribute is unset; do nothing when the attribute is set but its file is
missing — the `os.path.exists` guard of line 1063), and save the metadata
keyed by the raw title with `cover_path` pointing at `covers/<title>.png`
in every exit-zero case.  On a nonzero exit code nothing is written and
failure is reported. -/
def run_finalize (r : GenRequest) (env : FinalizeEnv) : FinalizeResult :=
  if env.returncode = 0 then
    let expected_file := reconcile_output (save_path r.title) env.expectedExists env.songsDir
    let final_cover := cover_target r.title
    let coverRename :=
      match env.current_cover_path with
      | some p => if env.tempCoverExists then some (p, final_cover) else none
      | none => none
    let gradientCover :=
      match env.current_cover_path with
      | some _ => none
      | none => some final_cover
    let md : Metadata :=
      ⟨r.title, r.lyrics, r.style, r.genre, r.song_type,
        some (pathStr final_cover), env.now⟩
    { adopted := some expected_file, coverRename := coverRename,
      gradientCover := gradientCover,
      metadataWrite := some (metadata_target r.title, md), success := true }
  else
    { adopted := none, coverRename := none, gradientCover := none,
      metadataWrite := none, success := false }

/-! Playback (`update_audio_ui`, `next_song`, `play_song`,
lines 1434-1492) and the generation lifecycle flag (`generate_song`,
`generation_complete`, lines 933-975 and 1100-1103). -/

/-- `next_song` followed by `play_song` (lines 1434-1438, 1366-1371): on a
nonempty playlist the new playing index is `(i + 1) % len(playlist)`. -/
def next_song_index (n i : Nat) : Option Nat :=
  if n ≠ 0 then some ((i + 1) % n) else none

/-- One tick of `update_audio_ui` (lines 1470-1492), returning the index
the player advances to, `none` when it does not advance.  The guards
mirror the source: the mixer must be busy and the playlist nonempty; an
out-of-range index or a missing wav file ends in the bare `except` with no
advance; a zero track length raises `ZeroDivisionError` at the progress
computation, likewise swallowed; otherwise the player advances exactly
when `position >= length - 0.5`. -/
def update_audio_tick (busy : Bool) (playlist : List Str) (i : Nat)
    (wavExists : Bool) (position length : ℚ) : Option Nat :=
  if busy = true ∧ playlist ≠ [] then
    if i < playlist.length then
      if wavExists then
        if length = 0 then none
        else if position ≥ length - 1 / 2 then next_song_index playlist.length i
        else none
      else none
    else none
  else none

/-- The placeholder text reinserted in the lyrics box (line 1110); its
leading words are what `generate_song` tests with `startswith`. -/
def lyricsPlaceholder : Str := "Enter your lyrics here".data

/-- The state `generate_song` and `generation_complete` read and write:
the generating flag, the input widgets' contents, the remembered title,
and the pending uploaded-cover path. -/
structure UIState where
  generating : Bool
  title_entry : Str
  lyrics_box : Str
  style_entry : Str
  model_path_entry : Str
  version : Str
  topk_s : Str
  temperature_s : Str
  cfg_scale_s : Str
  audio_length_ms_s : Str
  current_title : Str
  current_cover_path : Option Str
deriving DecidableEq

/-- `HeartMuLaStudio.generate_song` (lines 933-975): an early return when
a generation is already in progress, otherwise gather the inputs
(defaulting an empty title through `get_next_unknown_name`, blanking
placeholder lyrics, defaulting the model path), set the generating flag
and hand a request to the worker thread. -/
def generate_song (s : UIState) (songStems : List Str) : UIState × Option GenRequest :=
  if s.generating then (s, none)
  else
    let stripped := pyStrip s.title_entry
    let title := if stripped = [] then get_next_unknown_name songStems else stripped
    let entry1 := if stripped = [] then title else s.title_entry
    let lyrics0 := pyStrip s.lyrics_box
    let lyrics := if leadsWith lyricsPlaceholder lyrics0 then [] else lyrics0
    let full_style := pyStrip s.style_entry
    let model_path :=
      if pyStrip s.model_path_entry = [] then "./ckpt".data else pyStrip s.model_path_entry
    let r : GenRequest :=
      ⟨title, lyrics, full_style, [], [], model_path, s.version, s.topk_s,
        s.temperature_s, s.cfg_scale_s, s.audio_length_ms_s⟩
    ({ s with generating := true, title_entry := entry1, current_title := title }, some r)

/-- The full placeholder text `generation_complete` reinserts on success
(line 1110). -/
def lyricsPlaceholderFull : Str :=
  "Enter your lyrics here...\n\nUse [verse], [chorus], [bridge], [instrumental] tags to structure your song.".data

/-- `HeartMuLaStudio.generation_complete` (lines 1100-1125): the
generating flag is cleared unconditionally; on success the inputs are
reset and the pending cover path cleared. -/
def generation_complete (success : Bool) (s : UIState) : UIState :=
  let s1 := { s with generating := false }
  if success then
    { s1 with title_entry := [], lyrics_box := lyricsPlaceholderFull,
              style_entry := [], current_cover_path := none }
  else s1

/-! Concrete fixtures used by witnesses and counterexamples. -/

/-- A songs directory holding `Unknown_2.wav`, `Unknown_7.wav`,
`Apple.wav`. -/
def stems0 : List Str := ["Unknown_2".data, "Unknown_7".data, "Apple".data]

/-- A generation request whose title holds a character outside
word characters, spaces and hyphens. -/
def reqA : GenRequest :=
  ⟨"a*b".data, "la la la".data, "rock".data, [], [], "./ckpt".data, "3B".data,
    "50".data, "1.0".data, "1.5".data, "240000".data⟩

/-- A generation request with empty lyrics and empty style. -/
def reqB : GenRequest :=
  ⟨"Song".data, [], [], [], [], "./ckpt".data, "3B".data, "50".data,
    "1.0".data, "1.5".data, "240000".data⟩

/-- Completion environment: exit code zero, no uploaded cover. -/
def envGrad : FinalizeEnv := ⟨0, true, [], none, false, "t0".data⟩

/-- Completion environment: exit code zero, the uploaded-cover attribute
set but the file it points at already gone. -/
def envTempMissing : FinalizeEnv :=
  ⟨0, true, [], some "output/covers/temp_cover.png".data, false, "t0".data⟩

/-- Completion environment: expected output missing, the songs directory
holding a single file `x.wav`. -/
def envDirX : FinalizeEnv := ⟨0, false, [⟨"x".data, 1⟩], none, false, "t0".data⟩

/-- Like `envDirX` but with a different, newer file `y.wav`. -/
def envDirY : FinalizeEnv := ⟨0, false, [⟨"y".data, 2⟩], none, false, "t0".data⟩

/-- A UI state whose generating flag is set. -/
def uiBusy : UIState :=
  ⟨true, "T".data, "words".data, "rock".data, "./ckpt".data, "3B".data,
    "50".data, "1.0".data, "1.5".data, "240000".data, "T".data, none⟩

/-! Helper lemmas. -/

theorem leadsWith_append (p t : Str) : leadsWith p (p ++ t) = true := by
  induction p with
  | nil => rfl
  | cons c cs ih => simp [leadsWith, ih]

theorem pySplit_no_sep {sep : Char} : ∀ s : Str, (∀ c ∈ s, c ≠ sep) →
    pySplit sep s = [s] := by
  intro s h
  induction s with
  | nil => rfl
  | cons c t ih =>
    have hc : c ≠ sep := h c (by simp)
    simp only [pySplit, if_neg hc, ih (fun d hd => h d (by simp [hd]))]

theorem pySplit_append_sep {sep : Char} : ∀ xs ys : Str, (∀ c ∈ xs, c ≠ sep) →
    pySplit sep (xs ++ sep :: ys) = xs :: pySplit sep ys := by
  intro xs
  induction xs with
  | nil => intro ys _; simp [pySplit]
  | cons c t ih =>
    intro ys h
    have hc : c ≠ sep := h c (by simp)
    simp only [List.cons_append, pySplit, if_neg hc]
    rw [show pySplit sep (t.append (sep :: ys)) = t :: pySplit sep ys from
      ih ys (fun d hd => h d (by simp [hd]))]

theorem dropWhile_all_false {p : Char → Bool} : ∀ s : Str,
    (∀ c ∈ s, p c = false) → s.dropWhile p = s := by
  intro s h
  cases s with
  | nil => rfl
  | cons c t => simp [List.dropWhile_cons, h c (by simp)]

theorem pyStrip_all_not_ws (s : Str) (h : ∀ c ∈ s, c.isWhitespace = false) :
    pyStrip s = s := by
  unfold pyStrip
  rw [dropWhile_all_false s h,
    dropWhile_all_false s.reverse (fun c hc => h c (List.mem_reverse.mp hc)),
    List.reverse_reverse]

theorem isDigit_not_ws (c : Char) (h : c.isDigit = true) :
    c.isWhitespace = false := by
  by_contra h2
  rw [Bool.not_eq_false] at h2
  simp only [Char.isWhitespace, Bool.or_eq_true, decide_eq_true_eq] at h2
  rcases h2 with ((h2 | h2) | h2) | h2 <;> subst h2 <;> exact absurd h (by decide)

theorem isDigit_ne_dash (c : Char) (h : c.isDigit = true) : c ≠ '-' := by
  intro heq; subst heq; exact absurd h (by decide)

theorem isDigit_ne_plus (c : Char) (h : c.isDigit = true) : c ≠ '+' := by
  intro heq; subst heq; exact absurd h (by decide)

theorem isDigit_ne_underscore (c : Char) (h : c.isDigit = true) : c ≠ '_' := by
  intro heq; subst heq; exact absurd h (by decide)

theorem decVal_append_digit (xs : Str) (c : Char) :
    decVal (xs ++ [c]) = 10 * decVal xs + digVal c := by
  simp [decVal, List.foldl_append]

theorem digVal_digitChar (d : Nat) (h : d < 10) :
    digVal (Nat.digitChar d) = d := by
  interval_cases d <;> rfl

theorem decVal_natRepr (n : Nat) : decVal (natRepr n) = n := by
  induction n using Nat.strong_induction_on with
  | _ n ih =>
    rw [natRepr]
    split
    · next h =>
      show 10 * 0 + digVal (Nat.digitChar n) = n
      rw [digVal_digitChar n h]; omega
    · next h =>
      rw [decVal_append_digit, ih (n / 10) (Nat.div_lt_self (by omega) (by omega)),
        digVal_digitChar _ (Nat.mod_lt _ (by omega))]
      omega

theorem intRepr_nonneg (n : Int) (h : 0 ≤ n) : intRepr n = natRepr n.toNat := by
  simp [intRepr, if_neg (by omega : ¬ n < 0)]

theorem listMaxInt_cons_ne_none (x : Int) (xs : List Int) :
    listMaxInt (x :: xs) ≠ none := by
  simp only [listMaxInt]
  split <;> simp

theorem listMaxInt_eq_none (l : List Int) (h : listMaxInt l = none) : l = [] := by
  cases l with
  | nil => rfl
  | cons x xs => exact absurd h (listMaxInt_cons_ne_none x xs)

theorem le_listMaxInt : ∀ (l : List Int) (x : Int), x ∈ l →
    ∀ m, listMaxInt l = some m → x ≤ m := by
  intro l
  induction l with
  | nil => intro x hx _ _; exact absurd hx (List.not_mem_nil x)
  | cons y ys ih =>
    intro x hx m hm
    cases hys : listMaxInt ys with
    | none =>
      simp only [listMaxInt, hys, Option.some.injEq] at hm
      have hempty := listMaxInt_eq_none _ hys
      subst hempty
      rcases List.mem_cons.mp hx with h | h
      · omega
      · exact absurd h (List.not_mem_nil x)
    | some m' =>
      simp only [listMaxInt, hys, Option.some.injEq] at hm
      rcases List.mem_cons.mp hx with h | h
      · subst h; rw [← hm]; exact le_max_left _ _
      · exact le_trans (ih x h m' hys) (by rw [← hm]; exact le_max_right _ _)

theorem listMaxInt_mem : ∀ (l : List Int) (m : Int), listMaxInt l = some m →
    m ∈ l := by
  intro l
  induction l with
  | nil => intro m hm; exact absurd hm (by simp [listMaxInt])
  | cons y ys ih =>
    intro m hm
    cases hys : listMaxInt ys with
    | none =>
      simp only [listMaxInt, hys, Option.some.injEq] at hm
      simp [← hm]
    | some m' =>
      simp only [listMaxInt, hys, Option.some.injEq] at hm
      rcases max_choice y m' with h | h
      · rw [← hm, h]; exact List.mem_cons_self _ _
      · rw [← hm, h]; exact List.mem_cons_of_mem _ (ih m' hys)

theorem filterMap_parse_eq : ∀ stems : List Str,
    (stems.filter (fun s => leadsWith unknownTag s)).filterMap parse_unknown_num
      = stems.filterMap parse_unknown_num := by
  intro stems
  induction stems with
  | nil => rfl
  | cons s t ih =>
    by_cases h : leadsWith unknownTag s = true
    · simp [List.filter_cons, h, List.filterMap_cons, ih]
    · have hp : parse_unknown_num s = none := by
        simp [parse_unknown_num, h]
      simp [List.filter_cons, h, List.filterMap_cons, hp, ih]

theorem parse_unknown_digits (ds : Str) (hne : ds ≠ [])
    (hdig : ds.all Char.isDigit = true) :
    parse_unknown_num (unknownTag ++ ds) = some ((decVal ds : Int)) := by
  have hmem : ∀ c ∈ ds, c.isDigit = true := fun c hc => by
    exact List.all_eq_true.mp hdig c hc
  have htag : unknownTag = "Unknown".data ++ ['_'] := rfl
  have hsplit : pySplit '_' (unknownTag ++ ds) = ["Unknown".data, ds] := by
    rw [htag, List.append_assoc]
    have h1 : ∀ c ∈ "Unknown".data, c ≠ '_' := by decide
    have h2 : ∀ c ∈ ds, c ≠ '_' := fun c hc => isDigit_ne_underscore c (hmem c hc)
    rw [show ('_' :: []) ++ ds = '_' :: ds by rfl]
    rw [pySplit_append_sep _ _ h1, pySplit_no_sep ds h2]
  have hstrip : pyStrip ds = ds :=
    pyStrip_all_not_ws ds (fun c hc => isDigit_not_ws c (hmem c hc))
  unfold parse_unknown_num
  rw [if_pos (leadsWith_append unknownTag ds), hsplit]
  show (some ds).bind pyInt = _
  unfold pyInt
  rw [Option.some_bind, hstrip]
  cases ds with
  | nil => exact absurd rfl hne
  | cons c t =>
    have hc : c.isDigit = true := hmem c (by simp)
    simp only [pyIntCore, if_neg (isDigit_ne_dash c hc),
      if_neg (isDigit_ne_plus c hc), if_pos hdig]

theorem metadata_roundtrip (m : Metadata) :
    metadata_of_json (metadata_to_json m) = some m := by
  obtain ⟨t, l, s, g, ty, cp, ca⟩ := m
  cases cp <;> rfl

/-! Claim theorems. -/

/-- C3: for every state of the songs directory, `get_all_songs` returns
one entry per `*.wav` file (a permutation of the per-file entries) and the
returned list is sorted by the audio file's modification time in
descending order. -/
theorem c3_get_all_songs_sorted (store : MetaStore) (dir : List WavFile) :
    (get_all_songs store dir).Perm (dir.map (song_entry store)) ∧
    (get_all_songs store dir).Pairwise (fun a b => b.mtime ≤ a.mtime) := by
  constructor
  · exact List.mergeSort_perm _ _
  · have h := @List.sorted_mergeSort SongEntry
      (fun a b => decide (b.mtime ≤ a.mtime))
      (fun a b c h1 h2 => by
        simp only [decide_eq_true_eq] at h1 h2 ⊢; omega)
      (fun a b => by
        simp only [Bool.or_eq_true, decide_eq_true_eq]; omega)
      (dir.map (song_entry store))
    exact h.imp (fun hab => by simpa using hab)

/-- C9: metadata persistence round-trips: saving a record under a title
and loading that title returns a record whose title, lyrics, style, genre,
type and cover-path fields equal the values saved. -/
theorem c9_metadata_roundtrip (store : MetaStore) (t l s g ty : Str)
    (cp : Option Str) (now : Str) :
    load_metadata (save_metadata store t l s g ty cp now) t =
      some ⟨t, l, s, g, ty, cp, now⟩ := by
  unfold load_metadata save_metadata
  rw [if_pos rfl, Option.some_bind]
  exact metadata_roundtrip _

/-- C10: `get_next_unknown_name` returns `Unknown_N` where `N` is one
greater than the maximum integer parsed from the existing
`Unknown_*.wav` stems (or `1` when no stem parses to a number), and the
returned name never equals the stem of an existing `Unknown_k.wav` file
whose suffix `k` is a nonempty string of digits. -/
theorem c10_next_unknown_name_fresh (stems : List Str) :
    (∃ N : Int,
      get_next_unknown_name stems = unknownTag ++ intRepr N ∧
      ((∀ s ∈ stems, parse_unknown_num s = none) → N = 1) ∧
      (∀ s ∈ stems, ∀ k : Int, parse_unknown_num s = some k → k < N) ∧
      ((∃ s ∈ stems, ∃ k : Int, parse_unknown_num s = some k) →
        ∃ s ∈ stems, parse_unknown_num s = some (N - 1))) ∧
    (∀ s ∈ stems, ∀ ds : Str, ds ≠ [] → ds.all Char.isDigit = true →
      s = unknownTag ++ ds → get_next_unknown_name stems ≠ s) := by
  have hnum := filterMap_parse_eq stems
  have hres : get_next_unknown_name stems =
      unknownTag ++ intRepr
        (match listMaxInt (stems.filterMap parse_unknown_num) with
         | none => 1
         | some m => m + 1) := by
    simp only [get_next_unknown_name, hnum]
  have main : ∃ N : Int,
      get_next_unknown_name stems = unknownTag ++ intRepr N ∧
      ((∀ s ∈ stems, parse_unknown_num s = none) → N = 1) ∧
      (∀ s ∈ stems, ∀ k : Int, parse_unknown_num s = some k → k < N) ∧
      ((∃ s ∈ stems, ∃ k : Int, parse_unknown_num s = some k) →
        ∃ s ∈ stems, parse_unknown_num s = some (N - 1)) := by
    cases hM : listMaxInt (stems.filterMap parse_unknown_num) with
    | none =>
      refine ⟨1, by rw [hres, hM], fun _ => rfl, ?_, ?_⟩
      · intro s hs k hk
        have : k ∈ stems.filterMap parse_unknown_num :=
          List.mem_filterMap.mpr ⟨s, hs, hk⟩
        rw [listMaxInt_eq_none _ hM] at this
        exact absurd this (List.not_mem_nil k)
      · rintro ⟨s, hs, k, hk⟩
        have : k ∈ stems.filterMap parse_unknown_num :=
          List.mem_filterMap.mpr ⟨s, hs, hk⟩
        rw [listMaxInt_eq_none _ hM] at this
        exact absurd this (List.not_mem_nil k)
    | some m =>
      refine ⟨m + 1, by rw [hres, hM], ?_, ?_, ?_⟩
      · intro hall
        obtain ⟨s, hs, hp⟩ := List.mem_filterMap.mp (listMaxInt_mem _ _ hM)
        exact absurd hp (by rw [hall s hs]; simp)
      · intro s hs k hk
        have hmem : k ∈ stems.filterMap parse_unknown_num :=
          List.mem_filterMap.mpr ⟨s, hs, hk⟩
        have := le_listMaxInt _ k hmem m hM
        omega
      · intro _
        obtain ⟨s, hs, hp⟩ := List.mem_filterMap.mp (listMaxInt_mem _ _ hM)
        exact ⟨s, hs, by rw [hp]; congr 1; omega⟩
  obtain ⟨N, hN, h1, h3, h4⟩ := main
  refine ⟨⟨N, hN, h1, h3, h4⟩, ?_⟩
  intro s hs ds hne hdig hseq heq
  have hp : parse_unknown_num s = some ((decVal ds : Int)) := by
    rw [hseq]; exact parse_unknown_digits ds hne hdig
  have hlt : (decVal ds : Int) < N := h3 s hs _ hp
  have hN0 : 0 ≤ N := le_trans (Int.ofNat_nonneg _) (le_of_lt hlt)
  have hds : intRepr N = ds := by
    have := heq.symm.trans hN
    rw [hseq] at this
    exact (List.append_cancel_left this).symm
  rw [intRepr_nonneg N hN0] at hds
  have : decVal ds = N.toNat := by rw [← hds, decVal_natRepr]
  have : (decVal ds : Int) = N := by
    rw [this, Int.toNat_of_nonneg hN0]
  omega

/-- Witness for C10 at a concrete songs directory: the fresh name differs
from the existing stem `Unknown_7`. -/
theorem c10_witness : get_next_unknown_name stems0 ≠ "Unknown_7".data :=
  (c10_next_unknown_name_fresh stems0).2 "Unknown_7".data (by decide)
    "7".data (by decide) (by decide) (by decide)

/-- Witness for C3 at a concrete store and directory. -/
theorem c3_witness :
    (get_all_songs (fun _ => none) [⟨"a".data, 1⟩, ⟨"b".data, 2⟩]).Perm
      ([⟨"a".data, 1⟩, ⟨"b".data, 2⟩].map (song_entry (fun _ => none))) ∧
    (get_all_songs (fun _ => none) [⟨"a".data, 1⟩, ⟨"b".data, 2⟩]).Pairwise
      (fun a b => b.mtime ≤ a.mtime) :=
  c3_get_all_songs_sorted (fun _ => none) [⟨"a".data, 1⟩, ⟨"b".data, 2⟩]

/-- Witness for C9 at concrete field values. -/
theorem c9_witness :
    load_metadata
      (save_metadata (fun _ => none) "T".data "la".data "rock".data [] []
        (some "output/covers/T.png".data) "t0".data) "T".data =
      some ⟨"T".data, "la".data, "rock".data, [], [],
        some "output/covers/T.png".data, "t0".data⟩ :=
  c9_metadata_roundtrip (fun _ => none) "T".data "la".data "rock".data [] []
    (some "output/covers/T.png".data) "t0".data

/-! C5: the progress heuristic. -/

theorem stepProgress_bound (cur : Nat) (line : Str) (h : cur ≤ 100) :
    stepProgress cur line ≤ 100 := by
  unfold stepProgress; split <;> omega

theorem stepProgress_mono (cur : Nat) (line : Str) (h : cur ≤ 100) :
    cur ≤ stepProgress cur line := by
  unfold stepProgress; split <;> omega

theorem foldl_stepProgress_bound : ∀ (lines : List Str) (cur : Nat),
    cur ≤ 100 → lines.foldl stepProgress cur ≤ 100 := by
  intro lines
  induction lines with
  | nil => intro cur h; exact h
  | cons l t ih => intro cur h; exact ih _ (stepProgress_bound cur l h)

/-- C5 (amended): the progress counter advances only on lines whose
stripped, lowercased text contains `step`, `generating` or `progress`;
each matching line sets the counter to `min (counter + 2) 100` — it adds
exactly 2 points while the result stays within 100 and stays at 100 once
reached — so over a run the counter is monotonically non-decreasing and
never exceeds 100. -/
theorem c5_progress_amended :
    (∀ (cur : Nat) (line : Str), progressLine line = false →
      stepProgress cur line = cur) ∧
    (∀ (cur : Nat) (line : Str), progressLine line = true →
      stepProgress cur line = min (cur + 2) 100) ∧
    (∀ (cur : Nat) (line : Str), progressLine line = true → cur + 2 ≤ 100 →
      stepProgress cur line = cur + 2) ∧
    (∀ lines : List Str, progressAfter lines ≤ 100) ∧
    (∀ (lines : List Str) (n : Nat),
      progressAfter (lines.take n) ≤ progressAfter (lines.take (n + 1))) := by
  refine ⟨?_, ?_, ?_, ?_, ?_⟩
  · intro cur line h; simp [stepProgress, h]
  · intro cur line h; simp [stepProgress, h]
  · intro cur line h h2; simp only [stepProgress, if_pos h]; omega
  · intro lines; exact foldl_stepProgress_bound lines 0 (by omega)
  · intro lines n
    unfold progressAfter
    rw [List.take_succ]
    cases h : lines[n]? with
    | none => simp
    | some a =>
      rw [List.foldl_append]
      simp only [Option.toList_some, List.foldl_cons, List.foldl_nil]
      exact stepProgress_mono _ a (foldl_stepProgress_bound _ 0 (by omega))

set_option maxRecDepth 10000 in
/-- C5 counterexample: after 50 matching lines the counter sits at 100;
the 51st matching line adds 0 points, not the 2 the claim requires of
every matching line. -/
theorem c5_progress_counterexample :
    progressLine "step".data = true ∧
    ¬ progressAfter (List.replicate 51 "step".data) =
        progressAfter (List.replicate 50 "step".data) + 2 := by
  exact ⟨by decide, by decide⟩

/-- Witness for C5: a non-matching line leaves the counter unchanged and
a matching line below the cap adds exactly 2. -/
theorem c5_progress_witness :
    stepProgress 40 "loading model".data = 40 ∧
    stepProgress 40 "step 3/100".data = 40 + 2 :=
  ⟨c5_progress_amended.1 40 "loading model".data (by decide),
   c5_progress_amended.2.2.1 40 "step 3/100".data (by decide) (by decide)⟩

/-! C4: side files and command line. -/

/-- C4 (amended): before launching the subprocess the worker writes the
lyrics side-file and passes `--lyrics=assets/lyrics.txt` exactly when the
lyrics are nonempty, and writes the tags side-file (holding the style
text) and passes `--tags=assets/tags.txt` exactly when the style is
nonempty; for a request with both fields nonempty both files are written
and both relative paths are passed. -/
theorem c4_side_files_amended (r : GenRequest) :
    ((launch_spec r).lyricsFile = some r.lyrics ↔ r.lyrics ≠ []) ∧
    ((launch_spec r).tagsFile = some r.style ↔ r.style ≠ []) ∧
    (Arg.lyrics "assets/lyrics.txt".data ∈ (launch_spec r).cmd ↔ r.lyrics ≠ []) ∧
    (Arg.tags "assets/tags.txt".data ∈ (launch_spec r).cmd ↔ r.style ≠ []) := by
  by_cases hl : r.lyrics = [] <;> by_cases hs : r.style = [] <;>
    simp [launch_spec, build_cmd, tags_parts, hl, hs, joinComma]

/-- C4 counterexample: the request `reqB` (empty lyrics, empty style)
writes neither side-file and passes neither relative path, though the
claim requires both for every generation request. -/
theorem c4_side_files_counterexample :
    (launch_spec reqB).lyricsFile = none ∧
    (launch_spec reqB).tagsFile = none ∧
    Arg.lyrics "assets/lyrics.txt".data ∉ (launch_spec reqB).cmd ∧
    Arg.tags "assets/tags.txt".data ∉ (launch_spec reqB).cmd := by
  exact ⟨rfl, rfl, by decide, by decide⟩

/-- Witness for C4 at the request `reqA`, whose lyrics and style are both
nonempty. -/
theorem c4_side_files_witness :
    (launch_spec reqA).lyricsFile = some reqA.lyrics ∧
    Arg.tags "assets/tags.txt".data ∈ (launch_spec reqA).cmd :=
  ⟨(c4_side_files_amended reqA).1.mpr (by decide),
   (c4_side_files_amended reqA).2.2.2.mpr (by decide)⟩

/-! C6: end-of-track auto-advance. -/

/-- C6: when the mixer is busy on a non-empty playlist with a valid
current index, the track file exists and has positive length, and the
polled position is within 0.5 seconds of the track length, the player
advances to index `(i + 1) % length`, which is a valid index and wraps
from the last entry to the first. -/
theorem c6_auto_advance (playlist : List Str) (i : Nat) (position length : ℚ)
    (hne : playlist ≠ []) (hi : i < playlist.length) (hlen : 0 < length)
    (hclose : |position - length| ≤ 1 / 2) :
    update_audio_tick true playlist i true position length =
      some ((i + 1) % playlist.length) ∧
    (i + 1) % playlist.length < playlist.length ∧
    (i = playlist.length - 1 → (i + 1) % playlist.length = 0) := by
  have hpos : position ≥ length - 1 / 2 := by
    have h := abs_le.mp hclose
    linarith [h.1]
  have hn : playlist.length ≠ 0 := by
    intro h; exact hne (List.length_eq_zero.mp h)
  have hlz : ¬ length = 0 := by
    intro h; rw [h] at hlen; exact lt_irrefl 0 hlen
  refine ⟨?_, Nat.mod_lt _ (Nat.pos_of_ne_zero hn), ?_⟩
  · unfold update_audio_tick next_song_index
    rw [if_pos ⟨rfl, hne⟩, if_pos hi, if_pos rfl, if_neg hlz, if_pos hpos,
      if_pos hn]
  · intro h
    subst h
    rw [Nat.sub_add_cancel (Nat.pos_of_ne_zero hn), Nat.mod_self]

/-- Witness for C6: with a two-entry playlist, current index 1 and the
position at the track end, the player wraps to index 0. -/
theorem c6_witness :
    update_audio_tick true ["a".data, "b".data] 1 true 10 10 =
      some ((1 + 1) % (["a".data, "b".data] : List Str).length) :=
  (c6_auto_advance ["a".data, "b".data] 1 10 10 (by decide) (by decide)
    (by norm_num) (by norm_num)).1

/-! C8: the single-generation flag. -/

/-- C8: at most one generation job runs at a time: if the generating flag
is set, `generate_song` returns the state unchanged and starts no worker;
if it is clear, `generate_song` sets it; and `generation_complete` clears
it on both success and failure. -/
theorem c8_single_generation :
    (∀ (s : UIState) (stems : List Str), s.generating = true →
      generate_song s stems = (s, none)) ∧
    (∀ (s : UIState) (stems : List Str), s.generating = false →
      (generate_song s stems).1.generating = true) ∧
    (∀ (b : Bool) (s : UIState), (generation_complete b s).generating = false) := by
  refine ⟨?_, ?_, ?_⟩
  · intro s stems h
    unfold generate_song
    rw [if_pos h]
  · intro s stems h
    unfold generate_song
    rw [if_neg (by simp [h])]
  · intro b s
    unfold generation_complete
    cases b <;> rfl

/-- Witness for C8 at a concrete busy state. -/
theorem c8_witness :
    generate_song uiBusy [] = (uiBusy, none) ∧
    (generation_complete true uiBusy).generating = false :=
  ⟨c8_single_generation.1 uiBusy [] rfl, c8_single_generation.2.2 true uiBusy⟩

/-! C1, C2, C7: the completion code of the worker. -/

theorem run_finalize_zero (r : GenRequest) (env : FinalizeEnv)
    (h : env.returncode = 0) :
    run_finalize r env =
      { adopted := some (reconcile_output (save_path r.title)
          env.expectedExists env.songsDir),
        coverRename :=
          match env.current_cover_path with
          | some p =>
            if env.tempCoverExists then some (p, cover_target r.title) else none
          | none => none,
        gradientCover :=
          match env.current_cover_path with
          | some _ => none
          | none => some (cover_target r.title),
        metadataWrite := some (metadata_target r.title,
          ⟨r.title, r.lyrics, r.style, r.genre, r.song_type,
            some (pathStr (cover_target r.title)), env.now⟩),
        success := true } := by
  unfold run_finalize
  rw [if_pos h]

theorem run_finalize_nonzero (r : GenRequest) (env : FinalizeEnv)
    (h : ¬ env.returncode = 0) :
    run_finalize r env = ⟨none, none, none, none, false⟩ := by
  unfold run_finalize
  rw [if_neg h]

theorem run_finalize_coverRename_none (r : GenRequest) (env : FinalizeEnv)
    (h : env.returncode = 0) (hc : env.current_cover_path = none) :
    (run_finalize r env).coverRename = none := by
  rw [run_finalize_zero r env h, hc]

theorem run_finalize_coverRename_some (r : GenRequest) (env : FinalizeEnv)
    (h : env.returncode = 0) (p : Str) (hc : env.current_cover_path = some p) :
    (run_finalize r env).coverRename =
      if env.tempCoverExists then some (p, cover_target r.title) else none := by
  rw [run_finalize_zero r env h, hc]

theorem run_finalize_gradient_none (r : GenRequest) (env : FinalizeEnv)
    (h : env.returncode = 0) (hc : env.current_cover_path = none) :
    (run_finalize r env).gradientCover = some (cover_target r.title) := by
  rw [run_finalize_zero r env h, hc]

theorem run_finalize_gradient_some (r : GenRequest) (env : FinalizeEnv)
    (h : env.returncode = 0) (p : Str) (hc : env.current_cover_path = some p) :
    (run_finalize r env).gradientCover = none := by
  rw [run_finalize_zero r env h, hc]

/-- C1 (amended): after a successful generation with title `T`, the
metadata file and the installed cover use the raw stem `T`, while the
audio save path uses the sanitized stem `safe_title T` (characters outside
word characters, whitespace and hyphen replaced by underscores, stripped,
falling back to `song`); the audio stem equals `T` — and hence all three
stems coincide — exactly when sanitizing leaves `T` unchanged, which fails
for titles holding characters outside word characters, spaces and
hyphens. -/
theorem c1_shared_stem_amended (r : GenRequest) (env : FinalizeEnv)
    (h : env.returncode = 0) :
    (save_path r.title).stem = safe_title r.title ∧
    (∃ md, (run_finalize r env).metadataWrite =
      some (metadata_target r.title, md)) ∧
    (∀ p dst, (run_finalize r env).coverRename = some (p, dst) →
      dst.stem = r.title) ∧
    (∀ dst, (run_finalize r env).gradientCover = some dst →
      dst.stem = r.title) ∧
    (metadata_target r.title).stem = r.title ∧
    ((save_path r.title).stem = r.title ↔ safe_title r.title = r.title) := by
  refine ⟨rfl, ⟨_, by rw [run_finalize_zero r env h]⟩, ?_, ?_, rfl, Iff.rfl⟩
  · intro p dst hp
    cases hc : env.current_cover_path with
    | none =>
      rw [run_finalize_coverRename_none r env h hc] at hp
      exact absurd hp (by simp)
    | some q =>
      rw [run_finalize_coverRename_some r env h q hc] at hp
      by_cases ht : env.tempCoverExists
      · rw [if_pos ht] at hp
        simp only [Option.some.injEq, Prod.mk.injEq] at hp
        rw [← hp.2]
        rfl
      · rw [if_neg ht] at hp
        exact absurd hp (by simp)
  · intro dst hd
    cases hc : env.current_cover_path with
    | none =>
      rw [run_finalize_gradient_none r env h hc] at hd
      simp only [Option.some.injEq] at hd
      rw [← hd]
      rfl
    | some q =>
      rw [run_finalize_gradient_some r env h q hc] at hd
      exact absurd hd (by simp)

/-- C1 counterexample: with title `a*b` (which holds a character outside
word characters, spaces and hyphens) a successful generation saves the
audio under stem `a_b` while the metadata file and the gradient cover use
stem `a*b`: the three per-song files do not share a stem. -/
theorem c1_shared_stem_counterexample :
    (save_path reqA.title).stem ≠ reqA.title ∧
    (run_finalize reqA envGrad).metadataWrite =
      some (metadata_target reqA.title,
        ⟨reqA.title, reqA.lyrics, reqA.style, reqA.genre, reqA.song_type,
          some (pathStr (cover_target reqA.title)), envGrad.now⟩) ∧
    (run_finalize reqA envGrad).gradientCover = some (cover_target reqA.title) ∧
    (metadata_target reqA.title).stem = reqA.title ∧
    (cover_target reqA.title).stem = reqA.title := by
  exact ⟨by decide, rfl, rfl, rfl, rfl⟩

/-- Witness for C1 at a sanitization-stable title. -/
theorem c1_shared_stem_witness :
    ((save_path reqB.title).stem = reqB.title ↔
      safe_title reqB.title = reqB.title) ∧
    (∃ md, (run_finalize reqB envGrad).metadataWrite =
      some (metadata_target reqB.title, md)) :=
  ⟨(c1_shared_stem_amended reqB envGrad rfl).2.2.2.2.2,
   (c1_shared_stem_amended reqB envGrad rfl).2.1⟩

/-- C2 (amended): on a nonzero exit code the worker writes neither
metadata nor cover and reports failure.  On exit code zero it writes the
metadata JSON, whose recorded cover path is `covers/<title>.png` in every
case; a cover file is actually installed there by renaming the uploaded
temporary cover when the temp-cover attribute is set and its file exists,
or by synthesizing a gradient placeholder when the attribute is unset —
but when the attribute is set and its file is missing, no cover file is
written at all. -/
theorem c2_finalize_amended (r : GenRequest) (env : FinalizeEnv) :
    (¬ env.returncode = 0 →
      (run_finalize r env).metadataWrite = none ∧
      (run_finalize r env).coverRename = none ∧
      (run_finalize r env).gradientCover = none ∧
      (run_finalize r env).success = false) ∧
    (env.returncode = 0 →
      (run_finalize r env).success = true ∧
      (∃ md, (run_finalize r env).metadataWrite =
          some (metadata_target r.title, md) ∧
        md.cover_path = some (pathStr (cover_target r.title))) ∧
      (env.current_cover_path = none →
        (run_finalize r env).gradientCover = some (cover_target r.title) ∧
        (run_finalize r env).coverRename = none) ∧
      (∀ p, env.current_cover_path = some p →
        ((env.tempCoverExists = true →
          (run_finalize r env).coverRename = some (p, cover_target r.title) ∧
          (run_finalize r env).gradientCover = none) ∧
        (env.tempCoverExists = false →
          (run_finalize r env).coverRename = none ∧
          (run_finalize r env).gradientCover = none)))) := by
  constructor
  · intro h
    rw [run_finalize_nonzero r env h]
    exact ⟨rfl, rfl, rfl, rfl⟩
  · intro h
    rw [run_finalize_zero r env h]
    refine ⟨rfl, ⟨_, rfl, rfl⟩, ?_, ?_⟩
    · intro hc; rw [hc]; exact ⟨rfl, rfl⟩
    · intro p hc
      rw [hc]
      exact ⟨fun ht => ⟨by rw [ht]; rfl, rfl⟩, fun ht => ⟨by rw [ht]; rfl, rfl⟩⟩

/-- C2 counterexample: exit code zero with the temp-cover attribute set
but its file missing: the metadata is written, yet no cover file is
installed at `covers/<title>.png` — neither a rename nor a gradient
placeholder happens, though the claim requires a cover install on every
exit-zero run. -/
theorem c2_finalize_counterexample :
    envTempMissing.returncode = 0 ∧
    (run_finalize reqB envTempMissing).coverRename = none ∧
    (run_finalize reqB envTempMissing).gradientCover = none ∧
    (run_finalize reqB envTempMissing).metadataWrite ≠ none := by
  exact ⟨rfl, rfl, rfl, by decide⟩

/-- Witness for C2: a failing run writes nothing and an exit-zero run
without an uploaded cover synthesizes the gradient placeholder. -/
theorem c2_finalize_witness :
    (run_finalize reqA ⟨1, true, [], none, false, "t0".data⟩).metadataWrite =
      none ∧
    (run_finalize reqA envGrad).gradientCover = some (cover_target reqA.title) :=
  ⟨((c2_finalize_amended reqA ⟨1, true, [], none, false, "t0".data⟩).1
      (by decide)).1,
   (((c2_finalize_amended reqA envGrad).2 rfl).2.2.1 rfl).1⟩

/-- C7 (amended): on a successful run with the expected save path missing,
the worker adopts the most recently modified `*.wav` file of the songs
directory as `expected_file` — but this adopted file is dead state: the
finalized catalog writes (metadata, cover rename, gradient cover) do not
depend on the songs directory or on whether the expected file existed, and
never mention the adopted file. -/
theorem c7_reconcile_amended (r : GenRequest) (env env' : FinalizeEnv) :
    (env.returncode = 0 → env.expectedExists = false →
      ∀ f t, sortByMtimeDesc env.songsDir = f :: t →
        (run_finalize r env).adopted =
          some ⟨CatDir.songs, f.stem, "wav".data⟩ ∧
        ∀ g ∈ env.songsDir, g.mtime ≤ f.mtime) ∧
    (env'.returncode = env.returncode →
      env'.current_cover_path = env.current_cover_path →
      env'.tempCoverExists = env.tempCoverExists → env'.now = env.now →
      (run_finalize r env').coverRename = (run_finalize r env).coverRename ∧
      (run_finalize r env').gradientCover = (run_finalize r env).gradientCover ∧
      (run_finalize r env').metadataWrite = (run_finalize r env).metadataWrite) := by
  constructor
  · intro h0 hexp f t hsort
    constructor
    · have had : (run_finalize r env).adopted =
          some (reconcile_output (save_path r.title) env.expectedExists
            env.songsDir) := by
        rw [run_finalize_zero r env h0]
      rw [had]
      unfold reconcile_output
      rw [hexp, hsort]
      simp
    · intro g hg
      have hperm := List.mergeSort_perm env.songsDir
        (fun a b => decide (b.mtime ≤ a.mtime))
      have hmem : g ∈ f :: t := by
        rw [← hsort]
        exact hperm.mem_iff.mpr hg
      have hsorted := @List.sorted_mergeSort WavFile
        (fun a b => decide (b.mtime ≤ a.mtime))
        (fun a b c h1 h2 => by
          simp only [decide_eq_true_eq] at h1 h2 ⊢; omega)
        (fun a b => by
          simp only [Bool.or_eq_true, decide_eq_true_eq]; omega)
        env.songsDir
      rw [show env.songsDir.mergeSort (fun a b => decide (b.mtime ≤ a.mtime))
          = sortByMtimeDesc env.songsDir from rfl, hsort] at hsorted
      rcases List.mem_cons.mp hmem with hgf | hgt
      · rw [hgf]
      · have := (List.pairwise_cons.mp hsorted).1 g hgt
        simpa using this
  · intro h1 h2 h3 h4
    by_cases h0 : env.returncode = 0
    · rw [run_finalize_zero r env h0,
        run_finalize_zero r env' (by rw [h1]; exact h0), h2, h3, h4]
      exact ⟨rfl, rfl, rfl⟩
    · rw [run_finalize_nonzero r env h0,
        run_finalize_nonzero r env' (by rw [h1]; exact h0)]
      exact ⟨rfl, rfl, rfl⟩

/-- C7 counterexample: two exit-zero completions identical except for the
songs directory adopt different output files, yet every finalized catalog
write is identical — the finalized catalog state does not reflect the
adopted file. -/
theorem c7_reconcile_counterexample :
    (run_finalize reqB envDirX).adopted ≠ (run_finalize reqB envDirY).adopted ∧
    (run_finalize reqB envDirX).metadataWrite =
      (run_finalize reqB envDirY).metadataWrite ∧
    (run_finalize reqB envDirX).coverRename =
      (run_finalize reqB envDirY).coverRename ∧
    (run_finalize reqB envDirX).gradientCover =
      (run_finalize reqB envDirY).gradientCover := by
  have hx : (run_finalize reqB envDirX).adopted =
      some ⟨CatDir.songs, "x".data, "wav".data⟩ := by
    rw [run_finalize_zero reqB envDirX rfl]
    simp [reconcile_output, sortByMtimeDesc, envDirX]
  have hy : (run_finalize reqB envDirY).adopted =
      some ⟨CatDir.songs, "y".data, "wav".data⟩ := by
    rw [run_finalize_zero reqB envDirY rfl]
    simp [reconcile_output, sortByMtimeDesc, envDirY]
  refine ⟨?_, rfl, rfl, rfl⟩
  rw [hx, hy]
  intro hcon
  simp only [Option.some.injEq, CatPath.mk.injEq] at hcon
  exact absurd hcon.2.1 (by decide)

/-- Witness for C7: with the expected file missing and `x.wav` the only
song, `x.wav` is adopted; and the metadata writes of the two runs with
different songs directories agree. -/
theorem c7_reconcile_witness :
    (run_finalize reqB envDirX).adopted =
      some ⟨CatDir.songs, "x".data, "wav".data⟩ ∧
    (run_finalize reqB envDirY).metadataWrite =
      (run_finalize reqB envDirX).metadataWrite :=
  ⟨((c7_reconcile_amended reqB envDirX envDirX).1 rfl rfl ⟨"x".data, 1⟩ []
      (by simp [sortByMtimeDesc, envDirX])).1,
   ((c7_reconcile_amended reqB envDirX envDirY).2 rfl rfl rfl rfl).2.2⟩

end HML
